import Mathlib

/-!
Shallow embedding of the standings engine of the `pp_consulta` repository
(`app/parser.py`, `app/bot_matchesT6.py`, `app/bot_matches.py`).

Modelling conventions:
* A spreadsheet cell, after the pandas coercions performed by the code, is a
  `Cell`: `blank` for NA / missing / out-of-range values, `num n` for any value
  that `_is_number` accepts (native numbers and numeric strings; the code then
  uses `int(float(...))`, so the payload is an `Int`), and `str s` for every
  other value rendered as a string.  Native time-of-day values are rendered in
  their string form (e.g. "09:00"), which is exactly what `_looks_like_time`
  matches on.
* A results table (`pandas.DataFrame` read with `header=None` and
  `fillna(pd.NA)`) is a `List (List Cell)` of its rows; `df.empty` is `df = []`.
* Python string comparison is lexicographic on code points; it is embedded as
  `natsLe` over `String.data.map Char.toNat` (Lean's built-in `String` order
  does not reduce in the kernel).  Python's stable `list.sort(key=...)` is
  embedded as the stable insertion sort `sortBy` with the non-strict key
  comparison: any stable sort with the same comparator produces the same list.
* Python dicts keep insertion order; the accumulator dicts of `general_rows`
  are embedded as association lists with in-place update (`updateAdd`), and the
  per-division stats dict of `season_division_table` as a total function
  `String → Stats` that is only consulted and updated at roster keys (the code
  seeds the dict with exactly the roster keys and never adds others).
-/

/-- Code-point list of a string; Python compares strings by exactly these. -/

def strCodes (s : String) : List Nat := s.data.map Char.toNat

/-- Lexicographic non-strict order on code-point lists (Python string `<=`). -/
def natsLe : List Nat → List Nat → Bool
  | [], _ => true
  | _ :: _, [] => false
  | a :: as, b :: bs => if a < b then true else if b < a then false else natsLe as bs

/-- Python string `<=` (lexicographic on code points). -/
def pyStrLe (a b : String) : Bool := natsLe (strCodes a) (strCodes b)

/-- ASCII lower-casing on a code point, as Python `str.lower` acts on ASCII. -/
def lowerNat (n : Nat) : Nat := if 65 ≤ n ∧ n ≤ 90 then n + 32 else n

/-- Case-insensitive string `<=`: compare after ASCII lower-casing. -/
def ciStrLe (a b : String) : Bool :=
  natsLe ((strCodes a).map lowerNat) ((strCodes b).map lowerNat)

/-- ASCII whitespace test used to model Python `str.strip`. -/
def isWsChar (c : Char) : Bool :=
  c.toNat = 32 || c.toNat = 9 || c.toNat = 10 || c.toNat = 13 || c.toNat = 11 || c.toNat = 12

/-- Strip leading and trailing whitespace from a character list. -/
def trimChars (l : List Char) : List Char :=
  ((l.dropWhile isWsChar).reverse.dropWhile isWsChar).reverse

/-- Python `str.strip()`. -/
def pyStrip (s : String) : String := String.mk (trimChars s.data)

/-- ASCII lower-casing of one character (Python `str.lower` on ASCII input). -/
def lowerChar (c : Char) : Char :=
  if 65 ≤ c.toNat && c.toNat ≤ 90 then Char.ofNat (c.toNat + 32) else c

/-- Python `s.startswith(pre)`. -/
def pyStartsWithAux : List Char → List Char → Bool
  | [], _ => true
  | _ :: _, [] => false
  | p :: ps, c :: cs => p = c && pyStartsWithAux ps cs

/-- Python `s.startswith(pre)` on strings. -/
def pyStartsWith (s pre : String) : Bool := pyStartsWithAux pre.data s.data

/-- Python `s.isdigit()` for ASCII content: non-empty and all digits. -/
def allDigits (l : List Char) : Bool := !l.isEmpty && l.all Char.isDigit

/-- Split a character list on a separator character (Python `str.split(sep)`). -/
def splitCh (c : Char) : List Char → List (List Char)
  | [] => [[]]
  | x :: xs =>
    let r := splitCh c xs
    if x = c then [] :: r
    else
      match r with
      | [] => [[x]]
      | h :: t => (x :: h) :: t

/-- Stable insertion used to model Python's stable sort: a new element is
placed before the first list element it compares `le` to. -/
def insertBy (le : α → α → Bool) (x : α) : List α → List α
  | [] => [x]
  | y :: ys => if le x y then x :: y :: ys else y :: insertBy le x ys

/-- Stable insertion sort; with a total non-strict comparator this computes the
same list as Python's stable `list.sort`. -/
def sortBy (le : α → α → Bool) : List α → List α
  | [] => []
  | x :: xs => insertBy le x (sortBy le xs)

/-- Boolean chain test: every adjacent pair of the list satisfies `le`. -/
def chainBy (le : α → α → Bool) : List α → Bool
  | [] => true
  | [_] => true
  | a :: b :: rest => le a b && chainBy le (b :: rest)

/-- Lexicographic comparator combinator for an integer-valued key (Python
tuple comparison: decide on this key unless it ties, else move on). -/
def lexLe (k : α → Int) (next : α → α → Bool) (a b : α) : Bool :=
  if k a ≠ k b then decide (k a < k b) else next a b

/-- Lexicographic comparator combinator for a string-valued key, compared the
way Python compares strings (by code points). -/
def lexLeS (k : α → List Nat) (next : α → α → Bool) (a b : α) : Bool :=
  if k a ≠ k b then natsLe (k a) (k b) else next a b

/-- Spreadsheet cell after the pandas coercions (see the header comment):
`blank` for NA / None / out-of-range, `num n` for anything `_is_number`
accepts, `str s` for any other value in its string rendering. -/
inductive Cell where
  | blank : Cell
  | num : Int → Cell
  | str : String → Cell
deriving DecidableEq

/-- Embedding of `_is_number` (parser.py line 14): on the `Cell` abstraction
exactly the `num` cells pass the float-conversion test. -/
def isNumber : Cell → Bool
  | Cell.num _ => true
  | _ => false

/-- Numeric payload of a cell, i.e. `int(float(x))`; only consulted on cells
with `isNumber = true`. -/
def cellInt : Cell → Int
  | Cell.num n => n
  | _ => 0

/-- Embedding of `row.iloc[j] if j < len(row) else None` followed by the
NA-check the numeric helpers perform (NA and None behave identically). -/
def cellAt (row : List Cell) (i : Nat) : Cell := row.getD i Cell.blank

/-- String rendering `str(x).strip()` of a cell.  NA cells render as the
pandas sentinel string `"<NA>"`; numeric cells as their integer rendering. -/
def cellToName : Cell → String
  | Cell.blank => "<NA>"
  | Cell.num n => toString n
  | Cell.str s => pyStrip s

/-- Embedding of `str(row.iloc[i]).strip() if i < len(row) else ""`, the name
extraction of `_tally_match` and `season_division_table` (parser.py lines
99-100 and 273-274). -/
def nameAt (row : List Cell) (i : Nat) : String :=
  if i < row.length then cellToName (cellAt row i) else ""

/-- Embedding of `_looks_like_time` (parser.py line 21): native time-like
values appear in their string rendering, so the colon test decides. -/
def looksLikeTime : Cell → Bool
  | Cell.blank => false
  | Cell.num _ => false
  | Cell.str s =>
    let l := (pyStrip s).data
    if l.isEmpty then false
    else if l.contains ':' then
      let parts := splitCh ':' l
      decide (2 ≤ parts.length) && (parts.take 2).all allDigits
    else false

/-- Column layout of a results table (`_infer_layout`, parser.py line 42). -/
structure Layout where
  date : Nat
  time : Option Nat
  div : Nat
  j1 : Nat
  j2 : Nat
  setsStart : Nat
deriving DecidableEq

/-- Embedding of `_infer_layout` (parser.py lines 42-76): the T6 layout is
chosen iff some of the first 15 rows has a time-looking value in column 1. -/
def inferLayout (df : List (List Cell)) : Layout :=
  let hasTime := (df.take 15).any (fun row => looksLikeTime (cellAt row 1))
  if hasTime then ⟨0, some 1, 2, 3, 4, 5⟩ else ⟨0, none, 1, 2, 3, 4⟩

/-- The five set-score cell pairs of a row (`pairs` in parser.py lines 83 and
106): indices `(sets_start + i, sets_start + i + 1)` for `i = 0, 2, 4, 6, 8`. -/
def setPairs (row : List Cell) (setsStart : Nat) : List (Cell × Cell) :=
  (List.range 5).map (fun i => (cellAt row (setsStart + 2 * i), cellAt row (setsStart + 2 * i + 1)))

/-- Embedding of `_played_row` (parser.py lines 79-89): at least one set pair
has numeric scores on both sides. -/
def playedRow (row : List Cell) (setsStart : Nat) : Bool :=
  (setPairs row setsStart).any (fun p => isNumber p.1 && isNumber p.2)

/-- Accumulation loop of `_tally_match` (parser.py lines 106-118), returning
`(sets1, sets2, pts1, pts2)`.  The loop keeps running totals left to right;
as the totals are sums and counts, accumulating by structural recursion gives
the same four values. -/
def tallyPairs : List (Cell × Cell) → Nat × Nat × Int × Int
  | [] => (0, 0, 0, 0)
  | p :: ps =>
    let r := tallyPairs ps
    if isNumber p.1 && isNumber p.2 then
      let a := cellInt p.1
      let b := cellInt p.2
      (r.1 + (if b < a then 1 else 0), r.2.1 + (if a < b then 1 else 0),
        r.2.2.1 + a, r.2.2.2 + b)
    else r

/-- Result record of `_tally_match`: `(j1, j2, sets1, sets2, pts1, pts2)`. -/
structure Tally where
  j1 : String
  j2 : String
  sets1 : Nat
  sets2 : Nat
  pts1 : Int
  pts2 : Int
deriving DecidableEq

/-- Embedding of `_tally_match` (parser.py lines 92-120): `none` when the row
is not played or a player name is empty. -/
def tallyMatch (row : List Cell) (j1Idx j2Idx setsStart : Nat) : Option Tally :=
  if playedRow row setsStart then
    let j1 := nameAt row j1Idx
    let j2 := nameAt row j2Idx
    if j1 = "" ∨ j2 = "" then none
    else
      let r := tallyPairs (setPairs row setsStart)
      some ⟨j1, j2, r.1, r.2.1, r.2.2.1, r.2.2.2⟩
  else none

/-- Per-player accumulator of `season_division_table` (parser.py line 263):
`{"PJ": 0, "V": 0, "sets_f": 0, "sets_c": 0, "pts_f": 0, "pts_c": 0}`. -/
structure Stats where
  pj : Nat
  v : Nat
  setsF : Nat
  setsC : Nat
  ptsF : Int
  ptsC : Int
deriving DecidableEq

/-- Zero-valued seed record. -/
def Stats.zero : Stats := ⟨0, 0, 0, 0, 0, 0⟩

/-- Pointwise update of the stats map at one key. -/
def updFun (m : String → Stats) (k : String) (s : Stats) : String → Stats :=
  fun q => if q = k then s else m q

/-- One iteration of the match-folding loop of `season_division_table`
(parser.py lines 271-303).  The stats dict is seeded with exactly the roster
keys and never extended, so `j1n in stats` is `j1n ∈ players`. -/
def stepRow (players : List String) (ly : Layout) (stats : String → Stats)
    (row : List Cell) : String → Stats :=
  let j1 := nameAt row ly.j1
  let j2 := nameAt row ly.j2
  if j1 ∉ players ∧ j2 ∉ players then stats
  else
    match tallyMatch row ly.j1 ly.j2 ly.setsStart with
    | none => stats
    | some t =>
      let stats1 :=
        if t.j1 ∈ players then
          let s := stats t.j1
          updFun stats t.j1
            ⟨s.pj + 1, s.v + (if t.sets2 < t.sets1 then 1 else 0),
              s.setsF + t.sets1, s.setsC + t.sets2, s.ptsF + t.pts1, s.ptsC + t.pts2⟩
        else stats
      if t.j2 ∈ players then
        let s := stats1 t.j2
        updFun stats1 t.j2
          ⟨s.pj + 1, s.v + (if t.sets1 < t.sets2 then 1 else 0),
            s.setsF + t.sets2, s.setsC + t.sets1, s.ptsF + t.pts2, s.ptsC + t.pts1⟩
      else stats1

/-- The stats map after folding every row of the results table. -/
def finalStats (players : List String) (ly : Layout) (df : List (List Cell)) :
    String → Stats :=
  df.foldl (stepRow players ly) (fun _ => Stats.zero)

/-- Roster filtering of `season_division_table` (parser.py line 262):
`[p for p in players_by_div[division] if p and str(p).strip() != ""]`. -/
def filteredPlayers (plist : List String) : List String :=
  plist.filter (fun p => p ≠ "" && pyStrip p ≠ "")

/-- Output row of `season_division_table` (parser.py lines 308-314). -/
structure Row where
  jugador : String
  pj : Nat
  v : Nat
  dsets : Int
  dpuntos : Int
deriving DecidableEq

/-- Sort comparator of `season_division_table` (parser.py line 316): ascending
comparison of the Python key tuple `(-V, -dsets, -dpuntos, jugador)`. -/
def rowLe : Row → Row → Bool :=
  lexLe (fun r => -(r.v : Int))
    (lexLe (fun r => -r.dsets)
      (lexLe (fun r => -r.dpuntos)
        (fun a b => pyStrLe a.jugador b.jugador)))

/-- Embedding of `season_division_table` (parser.py lines 257-317).  Inputs
are the parsed roster mapping (`_load_players_for`) and the parsed results
table (`_load_results_for`). -/
def seasonDivisionTable (playersByDiv : List (String × List String))
    (division : String) (df : List (List Cell)) : List Row :=
  match playersByDiv.lookup division with
  | none => []
  | some plist =>
    let players := filteredPlayers plist
    if df.isEmpty then []
    else
      let ly := inferLayout df
      let stats := finalStats players ly df
      let rows := players.map (fun p =>
        let s := stats p
        (⟨p, s.pj, s.v, (s.setsF : Int) - (s.setsC : Int), s.ptsF - s.ptsC⟩ : Row))
      sortBy rowLe rows

/-- Award-point schedule of `general_rows` (parser.py lines 223-236): the
per-division `puntos_pos` closures, dispatched on the division label.  The
code only evaluates it at positions `pos ≥ 1` (`enumerate(table, start=1)`). -/
def puntosPos (division : String) (pos : Nat) : Int :=
  if pyStartsWith division "División 1" then
    (if pos ≤ 4 then [34, 31, 29, 27].getD (pos - 1) 27 else 27 - ((pos : Int) - 4))
  else if pyStartsWith division "División 2" then max (20 - ((pos : Int) - 1)) 0
  else max (10 - ((pos : Int) - 1)) 0

/-- One season's parsed inputs: the roster mapping of `_load_players_for`
(division label, ordered player list) and the results table. -/
structure Season where
  playersByDiv : List (String × List String)
  df : List (List Cell)

/-- Embedding of `d[name] = d.get(name, 0) + x` on an insertion-ordered dict. -/
def updateAdd (m : List (String × Int)) (k : String) (x : Int) : List (String × Int) :=
  match m with
  | [] => [(k, x)]
  | (k', v) :: rest => if k' = k then (k', v + x) :: rest else (k', v) :: updateAdd rest k x

/-- Output row of `general_rows` (parser.py lines 246-250). -/
structure GRow where
  jugador : String
  puntosLiga : Int
  v : Int
deriving DecidableEq

/-- Sort comparator of `general_rows` (parser.py line 252): ascending
comparison of the Python key tuple `(-PUNTOS_LIGA, -V, jugador)`. -/
def grLe : GRow → GRow → Bool :=
  lexLe (fun r => -r.puntosLiga)
    (lexLe (fun r => -r.v)
      (fun a b => pyStrLe a.jugador b.jugador))

/-- Accumulation over one season of `general_rows` (parser.py lines 219-242):
for every division of the season, in roster-mapping order, fold the ranked
table into the `(agg_points, agg_wins)` dicts. -/
def seasonStep (acc : List (String × Int) × List (String × Int)) (s : Season) :
    List (String × Int) × List (String × Int) :=
  s.playersByDiv.foldl (fun acc2 dv =>
    let table := seasonDivisionTable s.playersByDiv dv.1 s.df
    table.enum.foldl (fun acc3 ir =>
      (updateAdd acc3.1 ir.2.jugador (puntosPos dv.1 (ir.1 + 1)),
        updateAdd acc3.2 ir.2.jugador (ir.2.v : Int))) acc2) acc

/-- Embedding of `general_rows` (parser.py lines 215-253): accumulate award
points and wins over all seasons, then emit one row per touched player and
sort by `(-PUNTOS_LIGA, -V, jugador)`. -/
def generalRows (seasons : List Season) : List GRow :=
  let acc := seasons.foldl seasonStep ([], [])
  let rows := acc.1.map (fun kv =>
    (⟨kv.1, kv.2, ((acc.2.lookup kv.1).getD 0)⟩ : GRow))
  sortBy grLe rows

/-- Division deduction of `results_rows` (parser.py lines 374-389): use the
division cell when it is a usable non-digit string, otherwise take the first
roster division containing both players, else the first containing either,
else the empty string. -/
def resultsRowDivision (rawDiv : Cell) (playersByDiv : List (String × List String))
    (j1 j2 : String) : String :=
  let usable : Option String :=
    match rawDiv with
    | Cell.str s =>
      let s' := pyStrip s
      if s' ≠ "" && !(allDigits s'.data) then some s' else none
    | _ => none
  match usable with
  | some d => d
  | none =>
    let both := playersByDiv.find? (fun dv => j1 ∈ dv.2 && j2 ∈ dv.2)
    let found : Option String :=
      match both with
      | some dv => some dv.1
      | none => (playersByDiv.find? (fun dv => j1 ∈ dv.2 || j2 ∈ dv.2)).map (fun dv => dv.1)
    found.getD ""

/-- Embedding of `_norm_name` (bot_matchesT6.py line 54): strip and lower. -/
def normName (s : String) : String := String.mk ((pyStrip s).data.map lowerChar)

/-- Python `a or b` on an optional string: `None` and `""` are falsy. -/
def pyOrS (o : Option String) (alt : String) : String :=
  match o with
  | some s => if s = "" then alt else s
  | none => alt

/-- Embedding of `_division_for_players` (bot_matchesT6.py lines 137-138):
`pmap.get(_norm_name(j1)) or pmap.get(_norm_name(j2)) or "Desconocida"`. -/
def divisionForPlayers (pmap : List (String × String)) (j1 j2 : String) : String :=
  pyOrS (pmap.lookup (normName j1)) (pyOrS (pmap.lookup (normName j2)) "Desconocida")

/-- Match record of bot_matches.py (the `Match` dataclass, lines 66-73), with
the calendar date abstracted to a day number, and set cells already normalized
by `_read_resultados` to `int` or `None`. -/
structure BMatch where
  dt : Nat
  division : String
  j1 : String
  j2 : String
  sets : List (Option Int × Option Int)
deriving DecidableEq

/-- Embedding of `_all_sets_empty` (bot_matches.py lines 103-110): true iff no
set cell of either side is informed. -/
def allSetsEmpty (sets : List (Option Int × Option Int)) : Bool :=
  sets.all (fun p => p.1.isNone && p.2.isNone)

/-- Sort comparator of `_split_matches` (bot_matches.py lines 248-249):
ascending comparison of the key tuple `(dt, division, j1, j2)`. -/
def bmLe : BMatch → BMatch → Bool :=
  lexLe (fun m => (m.dt : Int))
    (lexLeS (fun m => strCodes m.division)
      (lexLeS (fun m => strCodes m.j1)
        (fun a b => pyStrLe a.j2 b.j2)))

/-- Embedding of `_split_matches` (bot_matches.py lines 229-250): keep the
matches whose sets are all empty, partition by date against `today`, and sort
each part by `(dt, division, j1, j2)`.  The loop appends in list order, so it
is a filter; the final `sort` is Python's stable sort. -/
def splitMatches (ms : List BMatch) (today : Nat) : List BMatch × List BMatch :=
  (sortBy bmLe (ms.filter (fun m => allSetsEmpty m.sets && decide (m.dt < today))),
    sortBy bmLe (ms.filter (fun m => allSetsEmpty m.sets && decide (m.dt = today))))

/-- Claim-side comparator for C1 (follows the spec's words): wins descending,
then sets-for minus sets-against descending, then points-for descending, final
ties alphabetical ascending by name compared case-insensitively. -/
def specRowLe (stats : String → Stats) : String → String → Bool :=
  lexLe (fun p => -((stats p).v : Int))
    (lexLe (fun p => -(((stats p).setsF : Int) - ((stats p).setsC : Int)))
      (lexLe (fun p => -(stats p).ptsF)
        (fun a b => ciStrLe a b)))

/-- Claim-side sortedness for C1: the rows of `season_division_table` are
ordered by the claimed comparator, applied to the players' aggregates. -/
def claimC1Sorted (playersByDiv : List (String × List String)) (division : String)
    (df : List (List Cell)) : Bool :=
  match playersByDiv.lookup division with
  | none => true
  | some plist =>
    let stats := finalStats (filteredPlayers plist) (inferLayout df) df
    chainBy (fun a b => specRowLe stats a.jugador b.jugador)
      (seasonDivisionTable playersByDiv division df)

/-- Claim-side test for C4/C2: the row names `p` as a participant in a played
match at the given layout. -/
def playsIn (p : String) (ly : Layout) (row : List Cell) : Bool :=
  playedRow row ly.setsStart &&
    (decide (nameAt row ly.j1 = p) || decide (nameAt row ly.j2 = p))

/-- Claim-side division of a roster player (first division whose list contains
the name), used to state the four-rule policy of C8. -/
def rosterDivOf (playersByDiv : List (String × List String)) (name : String) :
    Option String :=
  (playersByDiv.find? (fun dv => name ∈ dv.2)).map (fun dv => dv.1)

/-- Claim-side four-rule resolution policy of C8, following the spec's words:
shared division, else player 1's division, else the found player's division,
else the sentinel "Desconocida". -/
def specResolvePolicy (find : String → Option String) (j1 j2 : String) : String :=
  match find j1, find j2 with
  | some d1, some d2 => if d1 = d2 then d1 else d1
  | some d1, none => d1
  | none, some d2 => d2
  | none, none => "Desconocida"

/-- Lookup in the bot's player-to-division dict with Python falsiness: a
missing key and an empty-string division are both falsy. -/
def truthyGet (pmap : List (String × String)) (n : String) : Option String :=
  match pmap.lookup (normName n) with
  | some s => if s = "" then none else some s
  | none => none

/-- Claim-side unplayed test of C9: no set pair has both sides numeric. -/
def claimUnplayed (m : BMatch) : Bool :=
  !(m.sets.any (fun p => p.1.isSome && p.2.isSome))

/-- Claim-side total award points of C7: sum over every season and division of
the award points at the player's table positions. -/
def tableAward (division : String) (table : List Row) (name : String) : Int :=
  (table.enum.filter (fun ir => ir.2.jugador = name)).foldl
    (fun a ir => a + puntosPos division (ir.1 + 1)) 0

/-- Claim-side wins of a player in one ranked table. -/
def tableWins (table : List Row) (name : String) : Int :=
  (table.filter (fun r => r.jugador = name)).foldl (fun a r => a + (r.v : Int)) 0

/-- Claim-side set difference of a player in one ranked table. -/
def tableSetDiff (table : List Row) (name : String) : Int :=
  (table.filter (fun r => r.jugador = name)).foldl (fun a r => a + r.dsets) 0

/-- Claim-side points-for of a player in one season-division aggregation. -/
def tablePtsF (playersByDiv : List (String × List String)) (division : String)
    (df : List (List Cell)) (name : String) : Int :=
  match playersByDiv.lookup division with
  | none => 0
  | some plist =>
    if df.isEmpty then 0
    else if name ∈ filteredPlayers plist then
      (finalStats (filteredPlayers plist) (inferLayout df) df name).ptsF
    else 0

/-- Claim-side total award points of a player over all seasons/divisions. -/
def specTotalAward (seasons : List Season) (name : String) : Int :=
  seasons.foldl (fun acc s => s.playersByDiv.foldl (fun a2 dv =>
    a2 + tableAward dv.1 (seasonDivisionTable s.playersByDiv dv.1 s.df) name) acc) 0

/-- Claim-side total wins of a player over all seasons/divisions. -/
def specTotalWins (seasons : List Season) (name : String) : Int :=
  seasons.foldl (fun acc s => s.playersByDiv.foldl (fun a2 dv =>
    a2 + tableWins (seasonDivisionTable s.playersByDiv dv.1 s.df) name) acc) 0

/-- Claim-side total set difference of a player over all seasons/divisions. -/
def specTotalSetDiff (seasons : List Season) (name : String) : Int :=
  seasons.foldl (fun acc s => s.playersByDiv.foldl (fun a2 dv =>
    a2 + tableSetDiff (seasonDivisionTable s.playersByDiv dv.1 s.df) name) acc) 0

/-- Claim-side total points-for of a player over all seasons/divisions. -/
def specTotalPtsF (seasons : List Season) (name : String) : Int :=
  seasons.foldl (fun acc s => s.playersByDiv.foldl (fun a2 dv =>
    a2 + tablePtsF s.playersByDiv dv.1 s.df name) acc) 0

/-- Claim-side comparator for C7 (follows the spec's words): total award
points descending, total wins descending, total set difference descending,
total points-for descending, final ties by name ascending. -/
def specGenLe (seasons : List Season) : String → String → Bool :=
  lexLe (fun n => -(specTotalAward seasons n))
    (lexLe (fun n => -(specTotalWins seasons n))
      (lexLe (fun n => -(specTotalSetDiff seasons n))
        (lexLe (fun n => -(specTotalPtsF seasons n))
          (fun a b => pyStrLe a b))))

/-- Claim-side sortedness for C7: the general table is ordered by the claimed
comparator. -/
def claimC7Sorted (seasons : List Season) : Bool :=
  chainBy (fun a b => specGenLe seasons a.jugador b.jugador) (generalRows seasons)

/-- Concrete roster for the C1 counterexample. -/
def pbdC1 : List (String × List String) := [("División 1", ["ana", "Bea", "Carl", "Dave"])]

/-- Concrete results table for the C1 counterexample. -/
def dfC1 : List (List Cell) :=
  [[Cell.blank, Cell.blank, Cell.str "Carl", Cell.str "X",
      Cell.num 0, Cell.num 9, Cell.num 20, Cell.num 8],
    [Cell.blank, Cell.blank, Cell.str "Dave", Cell.str "Y",
      Cell.num 0, Cell.num 2, Cell.num 12, Cell.num 1]]

/-- Concrete legacy-layout match row for the C2 example: set pairs
(6,4), (3,6), (6,2). -/
def rowC2 : List Cell :=
  [Cell.blank, Cell.blank, Cell.str "P", Cell.str "Q",
    Cell.num 6, Cell.num 4, Cell.num 3, Cell.num 6, Cell.num 6, Cell.num 2]

/-- Concrete roster for the C4 counterexample and the C10 witness. -/
def pbdC4 : List (String × List String) := [("División 1", ["Ana"])]

/-- Concrete results table for the C5 counterexample: one played match naming
the non-roster player "Zed" against the roster player "Ana". -/
def dfC5 : List (List Cell) :=
  [[Cell.blank, Cell.blank, Cell.str "Zed", Cell.str "Ana", Cell.num 6, Cell.num 4]]

/-- Concrete season for the C7 counterexample: two one-player divisions whose
players collect equal award points and wins but different set differences. -/
def seasonC7 : Season where
  playersByDiv := [("División 3 - A", ["B"]), ("División 3 - B", ["A"])]
  df :=
    [[Cell.blank, Cell.blank, Cell.str "B", Cell.str "C",
        Cell.num 11, Cell.num 5, Cell.num 11, Cell.num 7],
      [Cell.blank, Cell.blank, Cell.str "A", Cell.str "D",
        Cell.num 11, Cell.num 5, Cell.num 5, Cell.num 11, Cell.num 11, Cell.num 9]]

/-- Concrete roster for the C8 counterexample: Ana in División 1, Luis in
División 2. -/
def pbdC8 : List (String × List String) :=
  [("División 1", ["Ana"]), ("División 2", ["Luis"])]

/-- Concrete normalized player-to-division dict of the bot, as
`_read_players_map` builds it for the C8 example roster. -/
def pmapC8 : List (String × String) :=
  [("ana", "División 1"), ("luis", "División 2")]

/-- Concrete unplayed-looking match for the C9 counterexample: one set has a
score on one side only. -/
def mC9 : BMatch := ⟨0, "D", "x", "y", [(some 6, none)]⟩

theorem insertBy_perm (le : α → α → Bool) (x : α) :
    ∀ l : List α, (insertBy le x l).Perm (x :: l) := by
  intro l
  induction l with
  | nil => simp [insertBy]
  | cons y ys ih =>
    by_cases h : le x y = true
    · simp [insertBy, h]
    · have hrw : insertBy le x (y :: ys) = y :: insertBy le x ys := by
        simp [insertBy, h]
      rw [hrw]
      exact (List.Perm.cons y ih).trans (List.Perm.swap x y ys)

theorem sortBy_perm (le : α → α → Bool) :
    ∀ l : List α, (sortBy le l).Perm l := by
  intro l
  induction l with
  | nil => simp [sortBy]
  | cons x xs ih =>
    exact ((insertBy_perm le x (sortBy le xs)).trans (List.Perm.cons x ih))

theorem mem_sortBy (le : α → α → Bool) (l : List α) (a : α) :
    a ∈ sortBy le l ↔ a ∈ l :=
  (sortBy_perm le l).mem_iff

theorem mem_insertBy (le : α → α → Bool) (x : α) (l : List α) (a : α) :
    a ∈ insertBy le x l ↔ a = x ∨ a ∈ l := by
  rw [(insertBy_perm le x l).mem_iff]
  simp

theorem pairwise_insertBy (le : α → α → Bool)
    (htrans : ∀ a b c, le a b = true → le b c = true → le a c = true)
    (htotal : ∀ a b, le a b = true ∨ le b a = true)
    (x : α) (l : List α) (hl : l.Pairwise (fun a b => le a b = true)) :
    (insertBy le x l).Pairwise (fun a b => le a b = true) := by
  induction l with
  | nil => simp [insertBy]
  | cons y ys ih =>
    rcases List.pairwise_cons.mp hl with ⟨hy, hys⟩
    by_cases h : le x y = true
    · have hrw : insertBy le x (y :: ys) = x :: y :: ys := by simp [insertBy, h]
      rw [hrw]
      refine List.pairwise_cons.mpr ⟨?_, hl⟩
      intro z hz
      rcases List.mem_cons.mp hz with rfl | hz'
      · exact h
      · exact htrans x y z h (hy z hz')
    · have hrw : insertBy le x (y :: ys) = y :: insertBy le x ys := by
        simp [insertBy, h]
      rw [hrw]
      refine List.pairwise_cons.mpr ⟨?_, ih hys⟩
      intro z hz
      rcases (mem_insertBy le x ys z).mp hz with heq | hz'
      · rw [heq]
        rcases htotal x y with hxy | hyx
        · exact absurd hxy h
        · exact hyx
      · exact hy z hz'

theorem pairwise_sortBy (le : α → α → Bool)
    (htrans : ∀ a b c, le a b = true → le b c = true → le a c = true)
    (htotal : ∀ a b, le a b = true ∨ le b a = true)
    (l : List α) : (sortBy le l).Pairwise (fun a b => le a b = true) := by
  induction l with
  | nil => simp [sortBy]
  | cons x xs ih => exact pairwise_insertBy le htrans htotal x (sortBy le xs) ih

theorem natsLe_total : ∀ a b : List Nat, natsLe a b = true ∨ natsLe b a = true := by
  intro a
  induction a with
  | nil => intro b; left; simp [natsLe]
  | cons x xs ih =>
    intro b
    cases b with
    | nil => right; simp [natsLe]
    | cons y ys =>
      by_cases hxy : x < y
      · left; simp [natsLe, hxy]
      · by_cases hyx : y < x
        · right; simp [natsLe, hyx, Nat.lt_asymm hyx]
        · have hxy' : x = y := Nat.le_antisymm (Nat.le_of_not_lt hyx) (Nat.le_of_not_lt hxy)
          subst hxy'
          rcases ih ys with h | h
          · left; simp [natsLe, h]
          · right; simp [natsLe, h]

theorem natsLe_trans :
    ∀ a b c : List Nat, natsLe a b = true → natsLe b c = true → natsLe a c = true := by
  intro a
  induction a with
  | nil => intro b c _ _; simp [natsLe]
  | cons x xs ih =>
    intro b c hab hbc
    cases b with
    | nil => simp [natsLe] at hab
    | cons y ys =>
      cases c with
      | nil => simp [natsLe] at hbc
      | cons z zs =>
        simp only [natsLe] at hab hbc ⊢
        by_cases hxy : x < y
        · have hyz : y ≤ z := by
            by_contra hc
            have : z < y := Nat.lt_of_not_le hc
            simp [Nat.lt_asymm this, this] at hbc
          have hxz : x < z := Nat.lt_of_lt_of_le hxy hyz
          simp [hxz]
        · by_cases hyx : y < x
          · simp [hxy, hyx] at hab
          · have hxy' : x = y := Nat.le_antisymm (Nat.le_of_not_lt hyx) (Nat.le_of_not_lt hxy)
            subst hxy'
            simp only [Nat.lt_irrefl, if_false] at hab
            by_cases hyz : x < z
            · simp [hyz]
            · by_cases hzy : z < x
              · simp [hyz, hzy] at hbc
              · have : x = z := Nat.le_antisymm (Nat.le_of_not_lt hzy) (Nat.le_of_not_lt hyz)
                subst this
                simp only [Nat.lt_irrefl, if_false] at hbc ⊢
                exact ih ys zs hab hbc

theorem natsLe_antisymm :
    ∀ a b : List Nat, natsLe a b = true → natsLe b a = true → a = b := by
  intro a
  induction a with
  | nil => intro b hab hba; cases b with
    | nil => rfl
    | cons y ys => simp [natsLe] at hba
  | cons x xs ih =>
    intro b hab hba
    cases b with
    | nil => simp [natsLe] at hab
    | cons y ys =>
      simp only [natsLe] at hab hba
      by_cases hxy : x < y
      · simp [hxy, Nat.lt_asymm hxy] at hba
      · by_cases hyx : y < x
        · simp [hxy, hyx] at hab
        · have hxy' : x = y := Nat.le_antisymm (Nat.le_of_not_lt hyx) (Nat.le_of_not_lt hxy)
          subst hxy'
          simp only [Nat.lt_irrefl, if_false] at hab hba
          rw [ih ys hab hba]

theorem pyStrLe_total (a b : String) : pyStrLe a b = true ∨ pyStrLe b a = true :=
  natsLe_total (strCodes a) (strCodes b)

theorem pyStrLe_trans (a b c : String) :
    pyStrLe a b = true → pyStrLe b c = true → pyStrLe a c = true :=
  natsLe_trans (strCodes a) (strCodes b) (strCodes c)

theorem lexLe_total (k : α → Int) (next : α → α → Bool)
    (hnext : ∀ a b, next a b = true ∨ next b a = true) (a b : α) :
    lexLe k next a b = true ∨ lexLe k next b a = true := by
  unfold lexLe
  by_cases h : k a = k b
  · rw [if_neg (by simp [h]), if_neg (by simp [h.symm])]
    exact hnext a b
  · have h' : k b ≠ k a := fun hc => h hc.symm
    rw [if_pos h, if_pos h']
    rcases lt_or_gt_of_ne h with hlt | hgt
    · left; exact decide_eq_true hlt
    · right; exact decide_eq_true hgt

theorem lexLe_trans (k : α → Int) (next : α → α → Bool)
    (hnext : ∀ a b c, next a b = true → next b c = true → next a c = true)
    (a b c : α)
    (hab : lexLe k next a b = true) (hbc : lexLe k next b c = true) :
    lexLe k next a c = true := by
  unfold lexLe at hab hbc ⊢
  by_cases h1 : k a = k b
  · by_cases h2 : k b = k c
    · have h3 : k a = k c := h1.trans h2
      rw [if_neg (by simp [h1])] at hab
      rw [if_neg (by simp [h2])] at hbc
      rw [if_neg (by simp [h3])]
      exact hnext a b c hab hbc
    · have h3 : k a ≠ k c := by rw [h1]; exact h2
      rw [if_pos h2] at hbc
      rw [if_pos h3]
      have hbc' : k b < k c := of_decide_eq_true hbc
      exact decide_eq_true (by rw [h1]; exact hbc')
  · by_cases h2 : k b = k c
    · have h3 : k a ≠ k c := fun hc => h1 (hc.trans h2.symm)
      rw [if_pos h1] at hab
      rw [if_pos h3]
      have hab' : k a < k b := of_decide_eq_true hab
      exact decide_eq_true (by rw [← h2]; exact hab')
    · rw [if_pos h1] at hab
      rw [if_pos h2] at hbc
      have h3 : k a < k c := lt_trans (of_decide_eq_true hab) (of_decide_eq_true hbc)
      rw [if_pos (ne_of_lt h3)]
      exact decide_eq_true h3

theorem lexLeS_total (k : α → List Nat) (next : α → α → Bool)
    (hnext : ∀ a b, next a b = true ∨ next b a = true) (a b : α) :
    lexLeS k next a b = true ∨ lexLeS k next b a = true := by
  unfold lexLeS
  by_cases h : k a = k b
  · rw [if_neg (by simp [h]), if_neg (by simp [h.symm])]
    exact hnext a b
  · have h' : k b ≠ k a := fun hc => h hc.symm
    rw [if_pos h, if_pos h']
    exact natsLe_total (k a) (k b)

theorem lexLeS_trans (k : α → List Nat) (next : α → α → Bool)
    (hnext : ∀ a b c, next a b = true → next b c = true → next a c = true)
    (a b c : α)
    (hab : lexLeS k next a b = true) (hbc : lexLeS k next b c = true) :
    lexLeS k next a c = true := by
  unfold lexLeS at hab hbc ⊢
  by_cases h1 : k a = k b
  · by_cases h2 : k b = k c
    · have h3 : k a = k c := h1.trans h2
      rw [if_neg (by simp [h1])] at hab
      rw [if_neg (by simp [h2])] at hbc
      rw [if_neg (by simp [h3])]
      exact hnext a b c hab hbc
    · have h3 : k a ≠ k c := by rw [h1]; exact h2
      rw [if_pos h2] at hbc
      rw [if_pos h3]
      rw [h1]
      exact hbc
  · by_cases h2 : k b = k c
    · have h3 : k a ≠ k c := fun hc => h1 (hc.trans h2.symm)
      rw [if_pos h1] at hab
      rw [if_pos h3]
      rw [← h2]
      exact hab
    · rw [if_pos h1] at hab
      rw [if_pos h2] at hbc
      by_cases h3 : k a = k c
      · exfalso
        apply h1
        have hba : natsLe (k b) (k a) = true := by rw [h3]; exact hbc
        exact natsLe_antisymm (k a) (k b) hab hba
      · rw [if_pos h3]
        exact natsLe_trans (k a) (k b) (k c) hab hbc

theorem rowLe_trans (a b c : Row) (hab : rowLe a b = true) (hbc : rowLe b c = true) :
    rowLe a c = true := by
  unfold rowLe at hab hbc ⊢
  refine lexLe_trans _ _ ?_ a b c hab hbc
  intro x y z hxy hyz
  refine lexLe_trans _ _ ?_ x y z hxy hyz
  intro u v w huv hvw
  refine lexLe_trans _ _ ?_ u v w huv hvw
  intro p q r hpq hqr
  exact pyStrLe_trans _ _ _ hpq hqr

theorem rowLe_total (a b : Row) : rowLe a b = true ∨ rowLe b a = true := by
  unfold rowLe
  refine lexLe_total _ _ ?_ a b
  intro x y
  refine lexLe_total _ _ ?_ x y
  intro u v
  refine lexLe_total _ _ ?_ u v
  intro p q
  exact pyStrLe_total _ _

theorem grLe_trans (a b c : GRow) (hab : grLe a b = true) (hbc : grLe b c = true) :
    grLe a c = true := by
  unfold grLe at hab hbc ⊢
  refine lexLe_trans _ _ ?_ a b c hab hbc
  intro x y z hxy hyz
  refine lexLe_trans _ _ ?_ x y z hxy hyz
  intro p q r hpq hqr
  exact pyStrLe_trans _ _ _ hpq hqr

theorem grLe_total (a b : GRow) : grLe a b = true ∨ grLe b a = true := by
  unfold grLe
  refine lexLe_total _ _ ?_ a b
  intro x y
  refine lexLe_total _ _ ?_ x y
  intro p q
  exact pyStrLe_total _ _

theorem bmLe_trans (a b c : BMatch) (hab : bmLe a b = true) (hbc : bmLe b c = true) :
    bmLe a c = true := by
  unfold bmLe at hab hbc ⊢
  refine lexLe_trans _ _ ?_ a b c hab hbc
  intro x y z hxy hyz
  refine lexLeS_trans _ _ ?_ x y z hxy hyz
  intro u v w huv hvw
  refine lexLeS_trans _ _ ?_ u v w huv hvw
  intro p q r hpq hqr
  exact pyStrLe_trans _ _ _ hpq hqr

theorem bmLe_total (a b : BMatch) : bmLe a b = true ∨ bmLe b a = true := by
  unfold bmLe
  refine lexLe_total _ _ ?_ a b
  intro x y
  refine lexLeS_total _ _ ?_ x y
  intro u v
  refine lexLeS_total _ _ ?_ u v
  intro p q
  exact pyStrLe_total _ _

/-- C1 counterexample: at a concrete season input the rows returned by
`season_division_table` are not ordered by the claimed comparator (wins, then
set difference, then points-for, then case-insensitive name): the code's third
key is the point difference, not points-for, and its name tie-break is
case-sensitive. -/
theorem claimC1_counterexample : claimC1Sorted pbdC1 "División 1" dfC1 = false := by
  decide

/-- C1 (amended): the rows returned by `season_division_table` are sorted by
the code's comparator: wins descending, then set difference descending, then
point difference (points-for minus points-against) descending, with remaining
ties broken by name ascending in case-sensitive code-point order. -/
theorem claimC1_amended (playersByDiv : List (String × List String))
    (division : String) (df : List (List Cell)) :
    (seasonDivisionTable playersByDiv division df).Pairwise
      (fun a b => rowLe a b = true) := by
  unfold seasonDivisionTable
  cases h : playersByDiv.lookup division with
  | none => simp
  | some plist =>
    by_cases hdf : df.isEmpty
    · simp [hdf]
    · simp only [hdf, if_false, Bool.false_eq_true]
      exact pairwise_sortBy rowLe rowLe_trans rowLe_total _

/-- C10: when the requested division is absent from the season's roster
mapping, or the season's results table has no rows, `season_division_table`
returns the empty list (so roster players are not listed in that case). -/
theorem claimC10_empty (playersByDiv : List (String × List String))
    (division : String) (df : List (List Cell)) :
    (playersByDiv.lookup division = none →
      seasonDivisionTable playersByDiv division df = []) ∧
    (df = [] → seasonDivisionTable playersByDiv division df = []) := by
  constructor
  · intro h
    unfold seasonDivisionTable
    rw [h]
  · intro h
    subst h
    unfold seasonDivisionTable
    cases playersByDiv.lookup division <;> simp

/-- C10 witness: a non-empty roster with an empty results table produces the
empty standings table. -/
theorem claimC10_empty_witness : seasonDivisionTable pbdC4 "División 1" [] = [] :=
  (claimC10_empty pbdC4 "División 1" []).2 rfl

/-- C6: the award-point schedule `puntos_pos` of `general_rows` assigns, in a
division labelled "División 1 …": 34, 31, 29, 27 at ranks 1-4, `27 - (rank -
4)` at every rank ≥ 5 with no floor (negative from rank 32 on); in "División 2
…": `max(20 - (rank - 1), 0)`; in every other division: `max(10 - (rank - 1),
0)`; and a six-player División 1 receives exactly [34, 31, 29, 27, 26, 25]. -/
theorem claimC6_award_schedule (division : String) (pos : Nat) :
    (pyStartsWith division "División 1" = true →
      (pos = 1 → puntosPos division pos = 34) ∧
      (pos = 2 → puntosPos division pos = 31) ∧
      (pos = 3 → puntosPos division pos = 29) ∧
      (pos = 4 → puntosPos division pos = 27) ∧
      (5 ≤ pos → puntosPos division pos = 27 - ((pos : Int) - 4)) ∧
      (32 ≤ pos → puntosPos division pos < 0)) ∧
    (pyStartsWith division "División 1" = false →
      pyStartsWith division "División 2" = true →
      puntosPos division pos = max (20 - ((pos : Int) - 1)) 0) ∧
    (pyStartsWith division "División 1" = false →
      pyStartsWith division "División 2" = false →
      puntosPos division pos = max (10 - ((pos : Int) - 1)) 0) ∧
    (List.range 6).map (fun i => puntosPos "División 1" (i + 1))
      = [34, 31, 29, 27, 26, 25] := by
  refine ⟨?_, ?_, ?_, by decide⟩
  · intro h1
    refine ⟨?_, ?_, ?_, ?_, ?_, ?_⟩
    · intro hp; subst hp; simp [puntosPos, h1]
    · intro hp; subst hp; simp [puntosPos, h1]
    · intro hp; subst hp; simp [puntosPos, h1]
    · intro hp; subst hp; simp [puntosPos, h1]
    · intro hp
      have hple : ¬ pos ≤ 4 := by omega
      simp [puntosPos, h1, hple]
    · intro hp
      have hple : ¬ pos ≤ 4 := by omega
      simp only [puntosPos, h1, if_true, hple, if_false]
      have : (32 : Int) ≤ (pos : Int) := by exact_mod_cast hp
      omega
  · intro h1 h2
    simp [puntosPos, h1, h2]
  · intro h1 h2
    simp [puntosPos, h1, h2]

/-- C6 witness: rank 6 of División 1 receives 27 - (6 - 4) = 25 points. -/
theorem claimC6_award_schedule_witness :
    puntosPos "División 1" 6 = 27 - (((6 : Nat) : Int) - 4) :=
  (((claimC6_award_schedule "División 1" 6).1 (by decide)).2.2.2.2.1) (by decide)

/-- C7 counterexample: at a concrete one-season input two players collect
equal total award points and equal total wins but different total set
differences, and the general table orders them by name instead of by set
difference — `general_rows` accumulates only award points and wins, and its
comparator has no set-difference or points-for keys. -/
theorem claimC7_counterexample :
    claimC7Sorted [seasonC7] = false ∧
    generalRows [seasonC7] = [⟨"A", 10, 1⟩, ⟨"B", 10, 1⟩] ∧
    specTotalAward [seasonC7] "A" = specTotalAward [seasonC7] "B" ∧
    specTotalWins [seasonC7] "A" = specTotalWins [seasonC7] "B" ∧
    specTotalSetDiff [seasonC7] "A" < specTotalSetDiff [seasonC7] "B" := by
  refine ⟨by decide, by decide, by decide, by decide, by decide⟩

/-- C7 (amended): the historic general table accumulates, per player, only the
sum of award points and the sum of wins, and orders players by total award
points descending, then total wins descending, with remaining ties broken by
name ascending in case-sensitive code-point order (set and point totals are
not accumulated and take no part in the ordering). -/
theorem claimC7_amended (seasons : List Season) :
    (generalRows seasons).Pairwise (fun a b => grLe a b = true) := by
  unfold generalRows
  exact pairwise_sortBy grLe grLe_trans grLe_total _

/-- C8 counterexample: with Ana in División 1 and Luis in División 2, the
division deduction of `results_rows` resolves the match Luis vs Ana to
"División 1" (the first roster division containing either player), while the
claimed four-rule policy (rule 2: player 1's division) yields "División 2". -/
theorem claimC8_counterexample :
    resultsRowDivision Cell.blank pbdC8 "Luis" "Ana" = "División 1" ∧
    rosterDivOf pbdC8 "Luis" = some "División 2" ∧
    rosterDivOf pbdC8 "Ana" = some "División 1" ∧
    specResolvePolicy (rosterDivOf pbdC8) "Luis" "Ana" = "División 2" := by
  refine ⟨by decide, by decide, by decide, by decide⟩

/-- C8 (amended): the bot's `_division_for_players` follows the four-rule
policy exactly (in particular Ana vs Luis resolves to "División 1"); the
fallback of `results_rows` instead returns the first roster division
containing both players, else the first containing either player (ignoring
player-1 priority), else the empty string rather than "Desconocida". -/
theorem claimC8_amended :
    (∀ (pmap : List (String × String)) (j1 j2 : String),
      divisionForPlayers pmap j1 j2 = specResolvePolicy (truthyGet pmap) j1 j2) ∧
    divisionForPlayers pmapC8 "Ana" "Luis" = "División 1" ∧
    (∀ (playersByDiv : List (String × List String)) (j1 j2 : String),
      resultsRowDivision Cell.blank playersByDiv j1 j2 =
        (match playersByDiv.find? (fun dv => j1 ∈ dv.2 && j2 ∈ dv.2) with
          | some dv => dv.1
          | none =>
            ((playersByDiv.find? (fun dv => j1 ∈ dv.2 || j2 ∈ dv.2)).map
              (fun dv => dv.1)).getD "")) := by
  refine ⟨?_, by decide, ?_⟩
  · intro pmap j1 j2
    unfold divisionForPlayers specResolvePolicy truthyGet pyOrS
    cases h1 : pmap.lookup (normName j1) with
    | none =>
      cases h2 : pmap.lookup (normName j2) with
      | none => rfl
      | some s => by_cases hs : s = "" <;> simp [hs]
    | some s =>
      by_cases hs : s = ""
      · subst hs
        cases h2 : pmap.lookup (normName j2) with
        | none => simp
        | some s2 => by_cases hs2 : s2 = "" <;> simp [hs2]
      · cases h2 : pmap.lookup (normName j2) with
        | none => simp [hs]
        | some s2 => by_cases hs2 : s2 = "" <;> simp [hs, hs2]
  · intro playersByDiv j1 j2
    simp only [resultsRowDivision]
    cases playersByDiv.find? (fun dv => j1 ∈ dv.2 && j2 ∈ dv.2) with
    | some dv => rfl
    | none => rfl

/-- C9 counterexample: a match whose only set is scored on one side has no
fully-scored set and lies strictly before the reference date, yet
`_split_matches` reports it in neither the overdue nor the due-today list —
the code keeps a match only when every set cell is blank. -/
theorem claimC9_counterexample :
    claimUnplayed mC9 = true ∧ mC9.dt < 1 ∧ splitMatches [mC9] 1 = ([], []) := by
  refine ⟨by decide, by decide, by decide⟩

/-- C9 (amended): `_split_matches` returns exactly the matches in which every
set cell is blank (no side of any set is informed), partitioned into overdue
(date strictly before the reference date) and due-today (date equal), with
each list sorted ascending by (date, division, player1, player2). -/
theorem claimC9_amended (ms : List BMatch) (today : Nat) :
    (∀ m : BMatch, m ∈ (splitMatches ms today).1 ↔
      m ∈ ms ∧ allSetsEmpty m.sets = true ∧ m.dt < today) ∧
    (∀ m : BMatch, m ∈ (splitMatches ms today).2 ↔
      m ∈ ms ∧ allSetsEmpty m.sets = true ∧ m.dt = today) ∧
    (splitMatches ms today).1.Pairwise (fun a b => bmLe a b = true) ∧
    (splitMatches ms today).2.Pairwise (fun a b => bmLe a b = true) := by
  unfold splitMatches
  refine ⟨?_, ?_, ?_, ?_⟩
  · intro m
    rw [mem_sortBy, List.mem_filter]
    simp [and_assoc]
  · intro m
    rw [mem_sortBy, List.mem_filter]
    simp [and_assoc]
  · exact pairwise_sortBy bmLe bmLe_trans bmLe_total _
  · exact pairwise_sortBy bmLe bmLe_trans bmLe_total _

theorem updFun_self (m : String → Stats) (k : String) (s : Stats) :
    updFun m k s k = s := by
  simp [updFun]

theorem updFun_other (m : String → Stats) (k : String) (s : Stats) (q : String)
    (h : q ≠ k) : updFun m k s q = m q := by
  simp [updFun, h]

theorem tallyMatch_of_unplayed (row : List Cell) (i1 i2 ss : Nat)
    (h : playedRow row ss = false) : tallyMatch row i1 i2 ss = none := by
  simp [tallyMatch, h]

theorem stepRow_unplayed (players : List String) (ly : Layout)
    (stats : String → Stats) (row : List Cell)
    (h : playedRow row ly.setsStart = false) :
    stepRow players ly stats row = stats := by
  have ht := tallyMatch_of_unplayed row ly.j1 ly.j2 ly.setsStart h
  by_cases hc : (nameAt row ly.j1 ∉ players ∧ nameAt row ly.j2 ∉ players)
  · simp [stepRow, hc]
  · simp [stepRow, hc, ht]

theorem tallyMatch_some (row : List Cell) (i1 i2 ss : Nat) (t : Tally)
    (ht : tallyMatch row i1 i2 ss = some t) :
    playedRow row ss = true ∧ t.j1 = nameAt row i1 ∧ t.j2 = nameAt row i2 ∧
    t.sets1 = (tallyPairs (setPairs row ss)).1 ∧
    t.sets2 = (tallyPairs (setPairs row ss)).2.1 ∧
    t.pts1 = (tallyPairs (setPairs row ss)).2.2.1 ∧
    t.pts2 = (tallyPairs (setPairs row ss)).2.2.2 := by
  by_cases hp : playedRow row ss = true
  · by_cases hn : nameAt row i1 = "" ∨ nameAt row i2 = ""
    · simp [tallyMatch, hp, hn] at ht
    · simp only [tallyMatch, hp, if_true, hn, if_false, if_neg hn] at ht
      have heq := Option.some.inj ht
      subst heq
      exact ⟨hp, rfl, rfl, rfl, rfl, rfl, rfl⟩
  · have hp' : playedRow row ss = false := by
      cases h : playedRow row ss
      · rfl
      · exact absurd h hp
    rw [tallyMatch_of_unplayed row i1 i2 ss hp'] at ht
    exact absurd ht (by simp)

theorem tallyPairs_spec (ps : List (Cell × Cell)) :
    (tallyPairs ps).1 = ps.countP
      (fun p => isNumber p.1 && isNumber p.2 && decide (cellInt p.2 < cellInt p.1)) ∧
    (tallyPairs ps).2.1 = ps.countP
      (fun p => isNumber p.1 && isNumber p.2 && decide (cellInt p.1 < cellInt p.2)) ∧
    (tallyPairs ps).2.2.1 =
      ((ps.filter (fun p => isNumber p.1 && isNumber p.2)).map (fun p => cellInt p.1)).sum ∧
    (tallyPairs ps).2.2.2 =
      ((ps.filter (fun p => isNumber p.1 && isNumber p.2)).map (fun p => cellInt p.2)).sum := by
  induction ps with
  | nil => simp [tallyPairs]
  | cons p ps ih =>
    rcases ih with ⟨ih1, ih2, ih3, ih4⟩
    by_cases h : (isNumber p.1 && isNumber p.2) = true
    · by_cases h1 : cellInt p.2 < cellInt p.1
      · have h2 : ¬ cellInt p.1 < cellInt p.2 := by omega
        simp [tallyPairs, h, h1, h2, List.countP_cons, ih1, ih2, ih3, ih4] <;> omega
      · by_cases h2 : cellInt p.1 < cellInt p.2
        · simp [tallyPairs, h, h1, h2, List.countP_cons, ih1, ih2, ih3, ih4] <;> omega
        · simp [tallyPairs, h, h1, h2, List.countP_cons, ih1, ih2, ih3, ih4] <;> omega
    · simp [tallyPairs, h, List.countP_cons, ih1, ih2, ih3, ih4]

theorem stepRow_eval_both (players : List String) (ly : Layout)
    (stats : String → Stats) (row : List Cell) (t : Tally)
    (ht : tallyMatch row ly.j1 ly.j2 ly.setsStart = some t)
    (h1 : t.j1 ∈ players) (h2 : t.j2 ∈ players) (hne : t.j1 ≠ t.j2) :
    stepRow players ly stats row t.j1 =
      (⟨(stats t.j1).pj + 1, (stats t.j1).v + (if t.sets2 < t.sets1 then 1 else 0),
        (stats t.j1).setsF + t.sets1, (stats t.j1).setsC + t.sets2,
        (stats t.j1).ptsF + t.pts1, (stats t.j1).ptsC + t.pts2⟩ : Stats) ∧
    stepRow players ly stats row t.j2 =
      (⟨(stats t.j2).pj + 1, (stats t.j2).v + (if t.sets1 < t.sets2 then 1 else 0),
        (stats t.j2).setsF + t.sets2, (stats t.j2).setsC + t.sets1,
        (stats t.j2).ptsF + t.pts2, (stats t.j2).ptsC + t.pts1⟩ : Stats) := by
  obtain ⟨hp, hj1, hj2, _, _, _, _⟩ := tallyMatch_some row ly.j1 ly.j2 ly.setsStart t ht
  have hguard : ¬(nameAt row ly.j1 ∉ players ∧ nameAt row ly.j2 ∉ players) := by
    intro hc
    exact hc.1 (hj1 ▸ h1)
  have hstep : ∀ q, stepRow players ly stats row q =
      (updFun (updFun stats t.j1
          ⟨(stats t.j1).pj + 1, (stats t.j1).v + (if t.sets2 < t.sets1 then 1 else 0),
            (stats t.j1).setsF + t.sets1, (stats t.j1).setsC + t.sets2,
            (stats t.j1).ptsF + t.pts1, (stats t.j1).ptsC + t.pts2⟩) t.j2
          ⟨((updFun stats t.j1
              ⟨(stats t.j1).pj + 1, (stats t.j1).v + (if t.sets2 < t.sets1 then 1 else 0),
                (stats t.j1).setsF + t.sets1, (stats t.j1).setsC + t.sets2,
                (stats t.j1).ptsF + t.pts1, (stats t.j1).ptsC + t.pts2⟩) t.j2).pj + 1,
            ((updFun stats t.j1
              ⟨(stats t.j1).pj + 1, (stats t.j1).v + (if t.sets2 < t.sets1 then 1 else 0),
                (stats t.j1).setsF + t.sets1, (stats t.j1).setsC + t.sets2,
                (stats t.j1).ptsF + t.pts1, (stats t.j1).ptsC + t.pts2⟩) t.j2).v +
              (if t.sets1 < t.sets2 then 1 else 0),
            ((updFun stats t.j1
              ⟨(stats t.j1).pj + 1, (stats t.j1).v + (if t.sets2 < t.sets1 then 1 else 0),
                (stats t.j1).setsF + t.sets1, (stats t.j1).setsC + t.sets2,
                (stats t.j1).ptsF + t.pts1, (stats t.j1).ptsC + t.pts2⟩) t.j2).setsF + t.sets2,
            ((updFun stats t.j1
              ⟨(stats t.j1).pj + 1, (stats t.j1).v + (if t.sets2 < t.sets1 then 1 else 0),
                (stats t.j1).setsF + t.sets1, (stats t.j1).setsC + t.sets2,
                (stats t.j1).ptsF + t.pts1, (stats t.j1).ptsC + t.pts2⟩) t.j2).setsC + t.sets1,
            ((updFun stats t.j1
              ⟨(stats t.j1).pj + 1, (stats t.j1).v + (if t.sets2 < t.sets1 then 1 else 0),
                (stats t.j1).setsF + t.sets1, (stats t.j1).setsC + t.sets2,
                (stats t.j1).ptsF + t.pts1, (stats t.j1).ptsC + t.pts2⟩) t.j2).ptsF + t.pts2,
            ((updFun stats t.j1
              ⟨(stats t.j1).pj + 1, (stats t.j1).v + (if t.sets2 < t.sets1 then 1 else 0),
                (stats t.j1).setsF + t.sets1, (stats t.j1).setsC + t.sets2,
                (stats t.j1).ptsF + t.pts1, (stats t.j1).ptsC + t.pts2⟩) t.j2).ptsC + t.pts1⟩) q := by
    intro q
    simp only [stepRow, if_neg hguard, ht, h1, if_true, h2]
  constructor
  · rw [hstep t.j1, updFun_other _ _ _ _ hne, updFun_self]
  · rw [hstep t.j2, updFun_self, updFun_other _ _ _ _ (Ne.symm hne)]

/-- C2: for a played match (with both its players tracked by the division and
distinct), the tallied sets count the pairs one side strictly wins (tied pairs
count for neither), the point totals sum exactly the pairs with both cells
numeric, both players' played counts rise by one, exactly the player with
strictly more sets won is credited a win (none on equal sets), and sets and
points accumulate symmetrically; for the set pairs (6,4), (3,6), (6,2) the
tally is setsWon 2-1, points 15-12, with the win credited to player 1. -/
theorem claimC2_tally (players : List String) (ly : Layout) (stats : String → Stats)
    (row : List Cell) (t : Tally)
    (ht : tallyMatch row ly.j1 ly.j2 ly.setsStart = some t)
    (h1 : t.j1 ∈ players) (h2 : t.j2 ∈ players) (hne : t.j1 ≠ t.j2) :
    (t.sets1 = (setPairs row ly.setsStart).countP
        (fun p => isNumber p.1 && isNumber p.2 && decide (cellInt p.2 < cellInt p.1)) ∧
      t.sets2 = (setPairs row ly.setsStart).countP
        (fun p => isNumber p.1 && isNumber p.2 && decide (cellInt p.1 < cellInt p.2)) ∧
      t.pts1 = (((setPairs row ly.setsStart).filter
        (fun p => isNumber p.1 && isNumber p.2)).map (fun p => cellInt p.1)).sum ∧
      t.pts2 = (((setPairs row ly.setsStart).filter
        (fun p => isNumber p.1 && isNumber p.2)).map (fun p => cellInt p.2)).sum) ∧
    (stepRow players ly stats row t.j1 =
      (⟨(stats t.j1).pj + 1, (stats t.j1).v + (if t.sets2 < t.sets1 then 1 else 0),
        (stats t.j1).setsF + t.sets1, (stats t.j1).setsC + t.sets2,
        (stats t.j1).ptsF + t.pts1, (stats t.j1).ptsC + t.pts2⟩ : Stats) ∧
     stepRow players ly stats row t.j2 =
      (⟨(stats t.j2).pj + 1, (stats t.j2).v + (if t.sets1 < t.sets2 then 1 else 0),
        (stats t.j2).setsF + t.sets2, (stats t.j2).setsC + t.sets1,
        (stats t.j2).ptsF + t.pts2, (stats t.j2).ptsC + t.pts1⟩ : Stats)) ∧
    (tallyMatch rowC2 2 3 4 = some ⟨"P", "Q", 2, 1, 15, 12⟩ ∧
      stepRow ["P", "Q"] (inferLayout [rowC2]) (fun _ => Stats.zero) rowC2 "P"
        = ⟨1, 1, 2, 1, 15, 12⟩ ∧
      stepRow ["P", "Q"] (inferLayout [rowC2]) (fun _ => Stats.zero) rowC2 "Q"
        = ⟨1, 0, 1, 2, 12, 15⟩) := by
  obtain ⟨hp, hj1, hj2, hs1, hs2, hp1, hp2⟩ := tallyMatch_some row ly.j1 ly.j2 ly.setsStart t ht
  obtain ⟨c1, c2, c3, c4⟩ := tallyPairs_spec (setPairs row ly.setsStart)
  refine ⟨⟨?_, ?_, ?_, ?_⟩, stepRow_eval_both players ly stats row t ht h1 h2 hne,
    by decide, by decide, by decide⟩
  · rw [hs1, c1]
  · rw [hs2, c2]
  · rw [hp1, c3]
  · rw [hp2, c4]

/-- C2 witness: the theorem applied to the concrete (6,4), (3,6), (6,2) match,
with a zero-valued stats map and both players on the roster. -/
theorem claimC2_tally_witness :
    stepRow ["P", "Q"] (inferLayout [rowC2]) (fun _ => Stats.zero) rowC2
        (Tally.j1 ⟨"P", "Q", 2, 1, 15, 12⟩) =
      (⟨1, 1, 2, 1, 15, 12⟩ : Stats) := by
  have h := claimC2_tally ["P", "Q"] (inferLayout [rowC2]) (fun _ => Stats.zero)
    rowC2 ⟨"P", "Q", 2, 1, 15, 12⟩ (by decide) (by decide) (by decide) (by decide)
  exact h.2.1.1.trans (by decide)

/-- C3: a match row in which no set pair has both cells numeric contributes
nothing: the aggregation step leaves the whole stats map unchanged. -/
theorem claimC3_unplayed (players : List String) (ly : Layout)
    (stats : String → Stats) (row : List Cell)
    (h : playedRow row ly.setsStart = false) :
    stepRow players ly stats row = stats :=
  stepRow_unplayed players ly stats row h

/-- C3 witness: a blank row under the inferred layout changes nothing. -/
theorem claimC3_unplayed_witness :
    stepRow ["Ana"] (inferLayout [[Cell.blank]]) (fun _ => Stats.zero) [Cell.blank]
      = (fun _ => Stats.zero) :=
  claimC3_unplayed ["Ana"] (inferLayout [[Cell.blank]]) (fun _ => Stats.zero)
    [Cell.blank] (by decide)

/-- C5 counterexample: a played match naming the non-roster player "Zed"
against the roster player "Ana" is aggregated, yet no aggregate record for
"Zed" is created or updated — "Zed"'s stats stay at the zero default and the
output table has no row for "Zed", while "Ana"'s side of the match counts. -/
theorem claimC5_counterexample :
    tallyMatch (dfC5.headD []) 2 3 4 = some ⟨"Zed", "Ana", 1, 0, 6, 4⟩ ∧
    finalStats ["Ana"] (inferLayout dfC5) dfC5 "Zed" = Stats.zero ∧
    finalStats ["Ana"] (inferLayout dfC5) dfC5 "Ana" = ⟨1, 0, 0, 1, 4, 6⟩ ∧
    (∀ r ∈ seasonDivisionTable pbdC4 "División 1" dfC5, r.jugador ≠ "Zed") := by
  refine ⟨by decide, by decide, by decide, by decide⟩

/-- C5 (amended): the aggregator drops the side of any player absent from the
division's roster: the aggregation step never changes the stats of a name
outside `players` (while the roster player's side of the same match still
counts). -/
theorem claimC5_nonroster_dropped (players : List String) (ly : Layout)
    (stats : String → Stats) (row : List Cell) (p : String)
    (hp : p ∉ players) :
    stepRow players ly stats row p = stats p := by
  by_cases hc : (nameAt row ly.j1 ∉ players ∧ nameAt row ly.j2 ∉ players)
  · simp [stepRow, hc]
  · cases ht : tallyMatch row ly.j1 ly.j2 ly.setsStart with
    | none => simp [stepRow, hc, ht]
    | some t =>
      simp only [stepRow, if_neg hc, ht]
      by_cases h1 : t.j1 ∈ players
      · have hne1 : p ≠ t.j1 := fun heq => hp (heq ▸ h1)
        by_cases h2 : t.j2 ∈ players
        · have hne2 : p ≠ t.j2 := fun heq => hp (heq ▸ h2)
          simp only [h1, if_true, h2]
          rw [updFun_other _ _ _ _ hne2, updFun_other _ _ _ _ hne1]
        · simp only [h1, if_true, h2, if_false]
          rw [updFun_other _ _ _ _ hne1]
      · by_cases h2 : t.j2 ∈ players
        · have hne2 : p ≠ t.j2 := fun heq => hp (heq ▸ h2)
          simp only [h1, if_false, h2, if_true]
          rw [updFun_other _ _ _ _ hne2]
        · simp [h1, h2]

/-- C5 witness: the non-roster player "Zed" of the concrete match keeps the
zero default. -/
theorem claimC5_nonroster_dropped_witness :
    stepRow ["Ana"] (inferLayout dfC5) (fun _ => Stats.zero) (dfC5.headD []) "Zed"
      = (fun _ => Stats.zero) "Zed" :=
  claimC5_nonroster_dropped ["Ana"] (inferLayout dfC5) (fun _ => Stats.zero)
    (dfC5.headD []) "Zed" (by decide)

theorem stepRow_skip (players : List String) (ly : Layout) (stats : String → Stats)
    (row : List Cell) (p : String) (h : playsIn p ly row = false) :
    stepRow players ly stats row p = stats p := by
  by_cases hpl : playedRow row ly.setsStart = true
  · have hnames : ¬(nameAt row ly.j1 = p) ∧ ¬(nameAt row ly.j2 = p) := by
      simpa [playsIn, hpl] using h
    by_cases hc : (nameAt row ly.j1 ∉ players ∧ nameAt row ly.j2 ∉ players)
    · simp [stepRow, hc]
    · cases ht : tallyMatch row ly.j1 ly.j2 ly.setsStart with
      | none => simp [stepRow, hc, ht]
      | some t =>
        obtain ⟨_, hj1, hj2, _, _, _, _⟩ := tallyMatch_some row ly.j1 ly.j2 ly.setsStart t ht
        have hne1 : p ≠ t.j1 := fun heq => hnames.1 (by rw [← hj1, ← heq])
        have hne2 : p ≠ t.j2 := fun heq => hnames.2 (by rw [← hj2, ← heq])
        simp only [stepRow, if_neg hc, ht]
        by_cases h1 : t.j1 ∈ players
        · by_cases h2 : t.j2 ∈ players
          · simp only [h1, if_true, h2]
            rw [updFun_other _ _ _ _ hne2, updFun_other _ _ _ _ hne1]
          · simp only [h1, if_true, h2, if_false]
            rw [updFun_other _ _ _ _ hne1]
        · by_cases h2 : t.j2 ∈ players
          · simp only [h1, if_false, h2, if_true]
            rw [updFun_other _ _ _ _ hne2]
          · simp [h1, h2]
  · have hpl' : playedRow row ly.setsStart = false := by
      cases hx : playedRow row ly.setsStart
      · rfl
      · exact absurd hx hpl
    rw [stepRow_unplayed players ly stats row hpl']

theorem foldl_stepRow_skip (players : List String) (ly : Layout) (p : String) :
    ∀ (df : List (List Cell)) (stats : String → Stats),
      (∀ row ∈ df, playsIn p ly row = false) →
      df.foldl (stepRow players ly) stats p = stats p := by
  intro df
  induction df with
  | nil => intro stats _; rfl
  | cons row rest ih =>
    intro stats h
    have hrow := h row (List.mem_cons_self row rest)
    have hrest : ∀ r ∈ rest, playsIn p ly r = false :=
      fun r hr => h r (List.mem_cons_of_mem row hr)
    rw [List.foldl_cons, ih _ hrest]
    exact stepRow_skip players ly stats row p hrow

/-- C4 counterexample: with a non-empty roster but an empty results table,
`season_division_table` returns the empty list, so the roster player "Ana"
does not appear in the standings. -/
theorem claimC4_counterexample :
    ¬ ∃ r ∈ seasonDivisionTable pbdC4 "División 1" [], r.jugador = "Ana" := by
  decide

/-- C4 (amended): provided the season's results table has at least one row,
every (non-blank) name of the division's roster appears as a row of
`season_division_table`, and a player named by no played match of the table
gets the zero-seeded row with played = 0 and wins = 0. -/
theorem claimC4_roster_complete (playersByDiv : List (String × List String))
    (division : String) (df : List (List Cell)) (plist : List String) (p : String)
    (hlk : playersByDiv.lookup division = some plist)
    (hdf : df ≠ [])
    (hp : p ∈ filteredPlayers plist) :
    (∃ r ∈ seasonDivisionTable playersByDiv division df, r.jugador = p) ∧
    ((∀ row ∈ df, playsIn p (inferLayout df) row = false) →
      (⟨p, 0, 0, 0, 0⟩ : Row) ∈ seasonDivisionTable playersByDiv division df) := by
  have hdf' : df.isEmpty = false := by
    cases df
    · exact absurd rfl hdf
    · rfl
  have htab : seasonDivisionTable playersByDiv division df =
      sortBy rowLe ((filteredPlayers plist).map (fun q =>
        let s := finalStats (filteredPlayers plist) (inferLayout df) df q
        (⟨q, s.pj, s.v, (s.setsF : Int) - (s.setsC : Int), s.ptsF - s.ptsC⟩ : Row))) := by
    unfold seasonDivisionTable
    rw [hlk]
    simp [hdf']
  constructor
  · rw [htab]
    exact ⟨_, (mem_sortBy _ _ _).mpr (List.mem_map_of_mem _ hp), rfl⟩
  · intro hplays
    have hz : finalStats (filteredPlayers plist) (inferLayout df) df p = Stats.zero :=
      foldl_stepRow_skip (filteredPlayers plist) (inferLayout df) p df _ hplays
    rw [htab, mem_sortBy]
    have heq : (⟨p, 0, 0, 0, 0⟩ : Row) =
        (fun q =>
          let s := finalStats (filteredPlayers plist) (inferLayout df) df q
          (⟨q, s.pj, s.v, (s.setsF : Int) - (s.setsC : Int), s.ptsF - s.ptsC⟩ : Row)) p := by
      simp [hz, Stats.zero]
    rw [heq]
    exact List.mem_map_of_mem _ hp

/-- C4 witness: in a season whose results table has one row, the roster player
"ana" (who plays in no match of the table) appears with the zero row. -/
theorem claimC4_roster_complete_witness :
    (∃ r ∈ seasonDivisionTable pbdC4 "División 1" dfC5, r.jugador = "Ana") ∧
    ((∀ row ∈ dfC5, playsIn "Ana" (inferLayout dfC5) row = false) →
      (⟨"Ana", 0, 0, 0, 0⟩ : Row) ∈ seasonDivisionTable pbdC4 "División 1" dfC5) :=
  claimC4_roster_complete pbdC4 "División 1" dfC5 ["Ana"] "Ana"
    (by decide) (by decide) (by decide)
